import Mathlib

/-!
# Verification of the `ssh-client` command-execution state machine

Shallow embedding of `src/index.ts` (class `SSHClient`) from
`@jcoreio/ssh-client`.  The core object is the event-driven state machine
inside `exec` (src/index.ts:61-139): a promise executor that accumulates
stdout/stderr chunks, optionally starts a timeout timer, optionally writes
stdin, and settles exactly once on either a timer fire or a channel `exit`
event.  We model the JavaScript single-threaded event delivery as a fold of
a `step` function over a list of events, and record every call to
`resolve`/`reject` in a `settles` log so that single-settlement can be
stated as a property of that log.

JavaScript truthiness that the source relies on is embedded explicitly:
`timeout ? setTimeout(...) : undefined` (src/index.ts:80) treats `0` as
absent, `let stdinDone = !stdin` and `if (stdin)` (src/index.ts:100,130)
treat the empty string as absent, `throwOnNonZero && code`
(src/index.ts:116) treats both `null` and `0` exit codes as falsy, and
`code || 0` (src/index.ts:122) maps `null` to `0`.
-/

namespace SshClient

/-- `ExecResult` (src/index.ts:15-19): the value `exec` resolves with. -/
structure ExecResult where
  code : Int
  stdout : String
  stderr : String
deriving DecidableEq

/-- The options object of `exec` (src/index.ts:63-71).  `stdin` is modelled
as an optional string (the `Buffer` alternative behaves identically for the
claims studied here, except that an empty `Buffer` is truthy; we only model
the string case).  `timeout` is milliseconds.  `throwOnNonZero` defaults to
`false` when absent, which is how JavaScript treats `undefined` in the
`throwOnNonZero && code` test. -/
structure ExecOptions where
  stdin : Option String
  timeout : Option Nat
  throwOnNonZero : Bool
deriving DecidableEq

/-- JavaScript truthiness of the `stdin` option: `undefined` and the empty
string are falsy (src/index.ts:100 `let stdinDone = !stdin`). -/
def stdinTruthy : Option String → Bool
  | none => false
  | some s => s ≠ ""

/-- JavaScript truthiness of the `timeout` option: `undefined` and `0` are
falsy (src/index.ts:80 `timeout ? setTimeout(...) : undefined`). -/
def timeoutTruthy : Option Nat → Bool
  | none => false
  | some t => t ≠ 0

/-- JavaScript truthiness of the exit code delivered by the `exit` event:
`null` and `0` are falsy (src/index.ts:116 `throwOnNonZero && code`). -/
def codeTruthy : Option Int → Bool
  | none => false
  | some n => n ≠ 0

/-- `code || 0` (src/index.ts:122): a falsy code (`null` or `0`) yields `0`,
anything else yields itself. -/
def jsOr0 : Option Int → Int
  | none => 0
  | some n => if n = 0 then 0 else n

/-- Rendering of the exit code inside error messages: JavaScript template
interpolation prints `null` for a null code. -/
def codeStr : Option Int → String
  | none => "null"
  | some n => toString n

/-- `resultInfo()` (src/index.ts:106-107): the diagnostic block embedded in
the exit-handler log and error messages. -/
def resultInfo (code : Option Int) (stderr stdout : String) : String :=
  "code: " ++ codeStr code ++ "\nstderr: \"" ++ stderr ++ "\"\nstdout: \"" ++ stdout ++ "\""

/-- The three rejection kinds produced inside the `exec` promise executor,
each carrying the data its message template interpolates. -/
inductive ExecError where
  | timeoutErr (timeout : Nat)
  | prematureExit (code : Option Int) (stderr stdout : String)
  | nonZeroExit (code : Option Int) (stderr stdout : String)
deriving DecidableEq

/-- The exact message string each rejection is constructed with
(src/index.ts:84, 111, 118). -/
def ExecError.message : ExecError → String
  | .timeoutErr t => "exec timeout of " ++ toString t ++ " ms expired"
  | .prematureExit c e o => "ssh command finished before stdin was written: " ++ resultInfo c e o
  | .nonZeroExit c e o => "command exited with non-zero " ++ resultInfo c e o

/-- A call to `resolve` or `reject` of the `exec` promise. -/
inductive Settlement where
  | resolve (r : ExecResult)
  | reject (e : ExecError)
deriving DecidableEq

/-- The events the runtime can deliver to one `exec` invocation after the
channel is open: a stdout data chunk (src/index.ts:94), a stderr data chunk
(src/index.ts:97), the timeout timer firing (src/index.ts:81), the channel
`exit` event (src/index.ts:101), and the `channel.stdin.end` completion
callback (src/index.ts:131-133). -/
inductive Event where
  | stdoutData (s : String)
  | stderrData (s : String)
  | timeoutFire
  | exit (code : Option Int)
  | stdinFlushed
deriving DecidableEq

/-- The mutable state captured by the promise executor's closure:
`stdout`, `stderr`, `settled`, `timeoutId` (as `timerActive`: a pending,
unfired, uncleared timer exists), `stdinDone`, plus two fields recording
observable actions: `stdinEndCalled` (whether `channel.stdin.end(stdin, ..)`
was invoked, writing and closing the input stream, src/index.ts:130-134) and
`settles`, the log of every `resolve`/`reject` call in order. -/
structure ExecState where
  stdout : String
  stderr : String
  settled : Bool
  timerActive : Bool
  stdinDone : Bool
  stdinEndCalled : Bool
  settles : List Settlement
deriving DecidableEq

/-- The state right after the synchronous part of the executor ran:
buffers empty, not settled, timer started iff `timeout` is truthy
(src/index.ts:80-89), `stdinDone = !stdin` (src/index.ts:100), and the
input stream written-and-closed iff `stdin` is truthy (src/index.ts:130). -/
def initState (opts : ExecOptions) : ExecState :=
  { stdout := ""
    stderr := ""
    settled := false
    timerActive := timeoutTruthy opts.timeout
    stdinDone := !stdinTruthy opts.stdin
    stdinEndCalled := stdinTruthy opts.stdin
    settles := [] }

/-- One event delivery.  Mirrors the handlers registered in
src/index.ts:81-133:
* data chunks append to the buffers (src/index.ts:94-99);
* the stdin completion callback sets `stdinDone` (src/index.ts:132);
* the timer callback checks `settled`, sets it, and rejects with the
  timeout message (src/index.ts:81-88); a fired timer is no longer pending
  either way;
* the `exit` handler first clears the timer unconditionally
  (src/index.ts:102-105), then, if unsettled, sets `settled` and picks
  premature-exit rejection / non-zero rejection / resolution
  (src/index.ts:108-128). -/
def step (opts : ExecOptions) (st : ExecState) (e : Event) : ExecState :=
  match e with
  | .stdoutData s => { st with stdout := st.stdout ++ s }
  | .stderrData s => { st with stderr := st.stderr ++ s }
  | .stdinFlushed => { st with stdinDone := true }
  | .timeoutFire =>
    if st.settled then { st with timerActive := false }
    else
      { st with
        timerActive := false, settled := true,
        settles := st.settles ++ [.reject (.timeoutErr (opts.timeout.getD 0))] }
  | .exit code =>
    if st.settled then { st with timerActive := false }
    else if !st.stdinDone then
      { st with
        timerActive := false, settled := true,
        settles := st.settles ++ [.reject (.prematureExit code st.stderr st.stdout)] }
    else if opts.throwOnNonZero && codeTruthy code then
      { st with
        timerActive := false, settled := true,
        settles := st.settles ++ [.reject (.nonZeroExit code st.stderr st.stdout)] }
    else
      { st with
        timerActive := false, settled := true,
        settles := st.settles ++
          [.resolve { code := jsOr0 code, stdout := st.stdout, stderr := st.stderr }] }

/-- Running one `exec` invocation against a whole delivered event trace. -/
def run (opts : ExecOptions) (es : List Event) : ExecState :=
  es.foldl (step opts) (initState opts)

def Event.isTimeout : Event → Bool
  | .timeoutFire => true
  | _ => false

def Event.isExitEv : Event → Bool
  | .exit _ => true
  | _ => false

def Event.isFlush : Event → Bool
  | .stdinFlushed => true
  | _ => false

/-- After an `exit` event, `clearTimeout` guarantees the timer callback can
no longer run: no `timeoutFire` may appear after an `exit` in a valid
trace. -/
def noTimeoutAfterExit : List Event → Bool
  | [] => true
  | e :: rest =>
    (!e.isExitEv || rest.all (fun x => !x.isTimeout)) && noTimeoutAfterExit rest

/-- The traces the JavaScript runtime can actually deliver to one
invocation: the timer fires at most once and only if it was started, the
channel emits `exit` at most once, the stdin completion callback runs at
most once and only if `channel.stdin.end` was called, and a cleared timer
never fires. -/
def validTrace (opts : ExecOptions) (es : List Event) : Prop :=
  es.countP (fun e => e.isTimeout) ≤ 1
  ∧ es.countP (fun e => e.isExitEv) ≤ 1
  ∧ es.countP (fun e => e.isFlush) ≤ 1
  ∧ (es.countP (fun e => e.isTimeout) = 0 ∨ timeoutTruthy opts.timeout = true)
  ∧ (es.countP (fun e => e.isFlush) = 0 ∨ stdinTruthy opts.stdin = true)
  ∧ noTimeoutAfterExit es = true

instance (opts : ExecOptions) (es : List Event) : Decidable (validTrace opts es) := by
  unfold validTrace
  infer_instance

/-- Concatenation of all stdout chunks in a trace. -/
def concatStdout (es : List Event) : String :=
  es.foldl (fun acc e => match e with | Event.stdoutData s => acc ++ s | _ => acc) ""

/-- Concatenation of all stderr chunks in a trace. -/
def concatStderr (es : List Event) : String :=
  es.foldl (fun acc e => match e with | Event.stderrData s => acc ++ s | _ => acc) ""

/-! ## The channel-open callback (src/index.ts:90-136)

`client.exec(cmd, (err, channel) => { ... })` invokes its callback either
with `err = undefined` and a live channel, or (when opening the command
channel failed) with `err` set and `channel = undefined`.  The callback
body never inspects `err`: its first action is
`channel.stderr.setEncoding('utf-8')` (src/index.ts:93), which on an
undefined `channel` throws a TypeError inside the transport's event
handling — outside the promise executor, so the promise is never
settled. -/

/-- What the channel-open callback observably does. -/
inductive OpenOutcome where
  | machineryStarted
  | thrownTypeError
  | rejected (message : String)
deriving DecidableEq

/-- The channel-open callback of `exec` (src/index.ts:92-135), abstracted to
its first observable action.  `err` is the callback's error argument and
`channelPresent` whether a channel was supplied; the two are correlated by
the transport (open failure ⇒ `err` set, no channel).  The body branches
only on channel presence because the source never reads `err`. -/
def execOpenCallback (_err : Option String) (channelPresent : Bool) : OpenOutcome :=
  if channelPresent then OpenOutcome.machineryStarted else OpenOutcome.thrownTypeError

/-! ## Connection manager (src/index.ts:25-59) -/

/-- Connection bookkeeping of one `SSHClient` instance: the
`connectStarted` flag (src/index.ts:25) and a count of how many times the
underlying `client.connect(config)` (src/index.ts:49) was invoked. -/
structure ClientState where
  connectStarted : Bool
  connectCalls : Nat
deriving DecidableEq

/-- A fresh client (src/index.ts:21-29): `connectStarted = false`, no
underlying connection attempt yet. -/
def initClient : ClientState := { connectStarted := false, connectCalls := 0 }

/-- `connect()` (src/index.ts:31-51): synchronously sets `connectStarted`
and starts one underlying connection attempt.  Both happen before any
suspension point, so no other caller can run between them. -/
def connectEff (st : ClientState) : ClientState :=
  { connectStarted := true, connectCalls := st.connectCalls + 1 }

/-- `connectIfNeeded()` (src/index.ts:53-55): connect only if no attempt
was ever started.  The check and `connect()`'s flag write are in the same
synchronous prefix of the async function, so they are atomic with respect
to the event loop. -/
def connectIfNeeded (st : ClientState) : ClientState :=
  if st.connectStarted then st else connectEff st

/-- The operations a caller can issue that touch connection state:
an explicit `connect()`, or `exec` / `putFile`, each of which begins with
`await this.connectIfNeeded()` (src/index.ts:73, 157). -/
inductive ClientOp where
  | connectOp
  | connectIfNeededOp
  | execOp
  | putFileOp
deriving DecidableEq

/-- Effect of one operation on the connection bookkeeping. -/
def applyOp (st : ClientState) : ClientOp → ClientState
  | .connectOp => connectEff st
  | .connectIfNeededOp => connectIfNeeded st
  | .execOp => connectIfNeeded st
  | .putFileOp => connectIfNeeded st

/-- Running a sequence of caller operations on a fresh client. -/
def runClient (ops : List ClientOp) : ClientState := ops.foldl applyOp initClient

/-! ## The connect() promise (src/index.ts:31-51) -/

/-- Signals the transport can emit to the listeners `connect()`
registered. -/
inductive ConnEvent where
  | ready
  | error (msg : String)
deriving DecidableEq

/-- `new VError(err, 'SSH connect failed')` (src/index.ts:40): the
transport error wrapped as the cause of a connect-failure error. -/
structure WrappedError where
  message : String
  cause : String
deriving DecidableEq

/-- A call to `resolve` or `reject` of the `connect()` promise. -/
inductive ConnSettle where
  | resolved
  | rejected (e : WrappedError)
deriving DecidableEq

/-- State of the `connect()` promise executor: whether the `once('ready')`
and `once('error')` listeners are still registered, and the log of
`resolve`/`reject` calls. -/
structure ConnectState where
  readyActive : Bool
  errorActive : Bool
  settles : List ConnSettle
deriving DecidableEq

/-- Right after `client.once('error', onError); client.once('ready',
onReady); client.connect(config)` (src/index.ts:47-49): both listeners
registered, nothing settled. -/
def connInit : ConnectState := { readyActive := true, errorActive := true, settles := [] }

/-- One transport signal delivered to the `connect()` executor.
`once` listeners are consumed when they fire; `onReady` removes the error
listener and resolves (src/index.ts:42-46), `onError` removes the ready
listener and rejects with the wrapped error (src/index.ts:37-41). -/
def connStep (st : ConnectState) (e : ConnEvent) : ConnectState :=
  match e with
  | .ready =>
    if st.readyActive then
      { readyActive := false, errorActive := false, settles := st.settles ++ [.resolved] }
    else st
  | .error msg =>
    if st.errorActive then
      { readyActive := false, errorActive := false,
        settles := st.settles ++
          [.rejected { message := "SSH connect failed", cause := msg }] }
    else st

/-- Running the `connect()` executor against a trace of transport
signals. -/
def runConnect (es : List ConnEvent) : ConnectState := es.foldl connStep connInit

/-- The settlement the first signal produces. -/
def connSettleOf : ConnEvent → ConnSettle
  | .ready => .resolved
  | .error msg => .rejected { message := "SSH connect failed", cause := msg }

/-! ## execScript (src/index.ts:141-154) -/

/-- The options object of `execScript` (src/index.ts:143-147): `exec`'s
options minus `stdin`, plus `sudo`.  The source field is named `sudo`;
Lean reserves that token, so the field is called `sudoFlag` here. -/
structure ScriptOptions where
  sudoFlag : Bool
  timeout : Option Nat
  throwOnNonZero : Bool
deriving DecidableEq

/-- `execScript` (src/index.ts:141-154) forwards to `exec`; this is the
(command, options) pair it passes: the command is
`(sudo ? 'sudo ' : '') + 'bash -s'` and the options are the remaining
options with `stdin` fixed to the script body. -/
def execScriptCall (script : String) (o : ScriptOptions) : String × ExecOptions :=
  ((if o.sudoFlag then "sudo " else "") ++ "bash -s",
   { stdin := some script, timeout := o.timeout, throwOnNonZero := o.throwOnNonZero })

/-! ## Basic lemmas about the exec machine -/

theorem run_append (opts : ExecOptions) (a b : List Event) :
    run opts (a ++ b) = b.foldl (step opts) (run opts a) := by
  simp [run, List.foldl_append]

/-- Once settled, a step neither unsettles nor settles again. -/
theorem step_frozen (opts : ExecOptions) (st : ExecState) (e : Event)
    (h : st.settled = true) :
    (step opts st e).settled = true ∧ (step opts st e).settles = st.settles := by
  cases e <;> simp [step, h]

/-- Once settled, a whole tail of events neither unsettles nor settles
again. -/
theorem foldl_frozen (opts : ExecOptions) (es : List Event) (st : ExecState)
    (h : st.settled = true) :
    (es.foldl (step opts) st).settled = true
    ∧ (es.foldl (step opts) st).settles = st.settles := by
  induction es generalizing st with
  | nil => exact ⟨h, rfl⟩
  | cons e rest ih =>
    have hs := step_frozen opts st e h
    have := ih (step opts st e) hs.1
    exact ⟨this.1, by rw [List.foldl_cons, this.2, hs.2]⟩

/-- A step never takes `settled` from `true` back to `false`. -/
theorem step_settled_mono (opts : ExecOptions) (st : ExecState) (e : Event)
    (h : st.settled = true) : (step opts st e).settled = true :=
  (step_frozen opts st e h).1

/-- The settle log has length 1 when settled and 0 when not: each step
preserves this. -/
theorem step_settles_length (opts : ExecOptions) (st : ExecState) (e : Event)
    (h : st.settles.length = if st.settled then 1 else 0) :
    (step opts st e).settles.length = if (step opts st e).settled then 1 else 0 := by
  by_cases hs : st.settled
  · have hf := step_frozen opts st e hs
    rw [hf.1, hf.2, h, hs]
  · have hs' : st.settled = false := by simpa using hs
    have h0 : st.settles.length = 0 := by simpa [hs'] using h
    cases e <;> simp [step, hs', h0] <;> split_ifs <;> simp_all

/-- The settle log of a run has length 1 when settled and 0 when not. -/
theorem run_settles_length (opts : ExecOptions) (es : List Event) :
    (run opts es).settles.length = if (run opts es).settled then 1 else 0 := by
  rw [run]
  induction es using List.reverseRecOn with
  | nil => simp [initState]
  | append_singleton rest e ih =>
    rw [List.foldl_append, List.foldl_cons, List.foldl_nil]
    exact step_settles_length opts _ e ih

/-- An unsettled run has an empty settle log. -/
theorem run_settles_nil (opts : ExecOptions) (es : List Event)
    (h : (run opts es).settled = false) : (run opts es).settles = [] := by
  have := run_settles_length opts es
  rw [h] at this
  simpa using List.length_eq_zero.mp (by simpa using this)

/-- A timeout fire or an exit event always leaves the machine settled. -/
theorem step_settles_event (opts : ExecOptions) (st : ExecState) (e : Event)
    (h : (e.isTimeout || e.isExitEv) = true) : (step opts st e).settled = true := by
  by_cases hs : st.settled
  · exact step_settled_mono opts st e (by simpa using hs)
  · have hs' : st.settled = false := by simpa using hs
    cases e <;>
      simp_all [Event.isTimeout, Event.isExitEv, step, hs'] <;>
      split_ifs <;> simp

/-- If some timeout fire or exit event occurs in the trace, the run ends
settled. -/
theorem foldl_settled_of_event (opts : ExecOptions) (es : List Event) (st : ExecState)
    (h : ∃ e ∈ es, (e.isTimeout || e.isExitEv) = true) :
    (es.foldl (step opts) st).settled = true := by
  induction es generalizing st with
  | nil => simp at h
  | cons x rest ih =>
    rcases h with ⟨e, he, hev⟩
    rcases List.mem_cons.mp he with rfl | hmem
    · rw [List.foldl_cons]
      exact (foldl_frozen opts rest _ (step_settles_event opts st e hev)).1
    · rw [List.foldl_cons]
      exact ih _ ⟨e, hmem, hev⟩

/-- A step never touches the stdout buffer except to append a stdout
chunk. -/
theorem step_stdout (opts : ExecOptions) (st : ExecState) (e : Event) :
    (step opts st e).stdout =
      (match e with | Event.stdoutData s => st.stdout ++ s | _ => st.stdout) := by
  cases e <;> simp [step] <;> split_ifs <;> simp

/-- A step never touches the stderr buffer except to append a stderr
chunk. -/
theorem step_stderr (opts : ExecOptions) (st : ExecState) (e : Event) :
    (step opts st e).stderr =
      (match e with | Event.stderrData s => st.stderr ++ s | _ => st.stderr) := by
  cases e <;> simp [step] <;> split_ifs <;> simp

/-- The stdout buffer of a run is the concatenation of all stdout chunks
delivered so far. -/
theorem run_stdout (opts : ExecOptions) (es : List Event) :
    (run opts es).stdout = concatStdout es := by
  rw [run, concatStdout]
  have key : ∀ (l : List Event) (st : ExecState),
      (l.foldl (step opts) st).stdout =
        l.foldl (fun acc e => match e with | Event.stdoutData s => acc ++ s | _ => acc)
          st.stdout := by
    intro l
    induction l with
    | nil => intro st; rfl
    | cons x rest ih =>
      intro st
      rw [List.foldl_cons, List.foldl_cons, ih, step_stdout]
  rw [key es (initState opts)]
  rfl

/-- run of a trace ending in one extra event is a step on the run of the
prefix. -/
theorem run_snoc (opts : ExecOptions) (es : List Event) (e : Event) :
    run opts (es ++ [e]) = step opts (run opts es) e := by
  rw [run_append, List.foldl_cons, List.foldl_nil]

/-- The stderr buffer of a run is the concatenation of all stderr chunks
delivered so far. -/
theorem run_stderr (opts : ExecOptions) (es : List Event) :
    (run opts es).stderr = concatStderr es := by
  rw [run, concatStderr]
  have key : ∀ (l : List Event) (st : ExecState),
      (l.foldl (step opts) st).stderr =
        l.foldl (fun acc e => match e with | Event.stderrData s => acc ++ s | _ => acc)
          st.stderr := by
    intro l
    induction l with
    | nil => intro st; rfl
    | cons x rest ih =>
      intro st
      rw [List.foldl_cons, List.foldl_cons, ih, step_stderr]
  rw [key es (initState opts)]
  rfl

end SshClient

open SshClient

/-! ## Claim theorems -/

/-- C1: for every exec invocation and every event trace the runtime can
deliver, the `settled` flag is monotone (any extension of a settled run
stays settled, so it transitions false→true at most once), `resolve`/
`reject` together are invoked at most once, and exactly once as soon as
the trace contains a timeout fire or an exit event. -/
theorem exec_settles_exactly_once (opts : ExecOptions) (es : List Event)
    (hv : validTrace opts es) :
    (run opts es).settles.length ≤ 1
    ∧ ((∃ e ∈ es, (e.isTimeout || e.isExitEv) = true) → (run opts es).settles.length = 1)
    ∧ (∀ tail, (run opts es).settled = true → (run opts (es ++ tail)).settled = true) := by
  refine ⟨?_, ?_, ?_⟩
  · have h := run_settles_length opts es
    split at h <;> omega
  · intro hex
    have hs : (run opts es).settled = true := foldl_settled_of_event opts es _ hex
    have h := run_settles_length opts es
    rw [hs] at h
    simpa using h
  · intro tail hs
    rw [run_append]
    exact (foldl_frozen opts tail _ hs).1

def w1opts : ExecOptions := { stdin := none, timeout := none, throwOnNonZero := false }

/-- Witness for C1: a concrete valid trace with one exit event settles
exactly once. -/
theorem exec_settles_exactly_once_witness :
    validTrace w1opts [Event.stdoutData "hi", Event.exit (some 0)]
    ∧ (run w1opts [Event.stdoutData "hi", Event.exit (some 0)]).settles.length = 1 := by
  refine ⟨by decide, ?_⟩
  exact (exec_settles_exactly_once w1opts [Event.stdoutData "hi", Event.exit (some 0)]
    (by decide)).2.1 (by decide)

/-- C2: if the timer fires while the invocation is unsettled, exec rejects
with the timeout-kind error reporting the configured timeout (with the
exact source message), and whatever is delivered afterwards — in
particular a late exit event — neither resolves nor rejects again;
conversely, an exit event always clears the pending timer before the
settlement decision is evaluated. -/
theorem exec_timeout_priority (opts : ExecOptions) (t : Nat) (es₁ es₂ : List Event)
    (ht : opts.timeout = some t)
    (hs : (run opts es₁).settled = false) :
    (run opts (es₁ ++ Event.timeoutFire :: es₂)).settles
      = [Settlement.reject (ExecError.timeoutErr t)]
    ∧ (ExecError.timeoutErr t).message = "exec timeout of " ++ toString t ++ " ms expired"
    ∧ (∀ (st : ExecState) (c : Option Int), (step opts st (Event.exit c)).timerActive = false) := by
  refine ⟨?_, rfl, ?_⟩
  · rw [run_append, List.foldl_cons]
    have hnil := run_settles_nil opts es₁ hs
    have hstep : (step opts (run opts es₁) Event.timeoutFire).settled = true :=
      step_settles_event opts _ _ (by decide)
    have hfroz := foldl_frozen opts es₂ _ hstep
    rw [hfroz.2]
    simp [step, hs, hnil, ht]
  · intro st c
    by_cases hset : st.settled <;> simp [step, hset] <;> split_ifs <;> rfl

def w2opts : ExecOptions := { stdin := none, timeout := some 100, throwOnNonZero := false }

/-- Witness for C2: with a 100 ms timeout, a fire after one stdout chunk
rejects with the timeout error and a later exit with code 0 changes
nothing. -/
theorem exec_timeout_priority_witness :
    w2opts.timeout = some 100
    ∧ (run w2opts [Event.stdoutData "partial"]).settled = false
    ∧ (run w2opts ([Event.stdoutData "partial"] ++ Event.timeoutFire :: [Event.exit (some 0)])).settles
        = [Settlement.reject (ExecError.timeoutErr 100)] := by
  refine ⟨rfl, rfl, ?_⟩
  exact (exec_timeout_priority w2opts 100 [Event.stdoutData "partial"]
    [Event.exit (some 0)] rfl rfl).1

/-- C3: an exit event delivered while unsettled, with stdin absent or
already flushed and the non-zero-exit rejection not triggered, resolves
exec with the null-coalesced exit code and with stdout/stderr equal to the
concatenation of all chunks delivered on each stream; the code field is
the exit code when non-null and 0 when null. -/
theorem exec_exit_resolves (opts : ExecOptions) (es : List Event) (c : Option Int)
    (hs : (run opts es).settled = false)
    (hd : (run opts es).stdinDone = true)
    (hnz : (opts.throwOnNonZero && codeTruthy c) = false) :
    (run opts (es ++ [Event.exit c])).settles
      = [Settlement.resolve
          { code := jsOr0 c, stdout := concatStdout es, stderr := concatStderr es }]
    ∧ jsOr0 none = 0 ∧ (∀ n : Int, jsOr0 (some n) = n) := by
  refine ⟨?_, rfl, ?_⟩
  · rw [run_snoc]
    have hnil := run_settles_nil opts es hs
    have hnz' : ¬(opts.throwOnNonZero = true ∧ codeTruthy c = true) := by
      simpa [Bool.and_eq_true] using hnz
    rw [← run_stdout opts es, ← run_stderr opts es]
    simp [step, hs, hd, hnz', hnil]
  · intro n
    by_cases hn : n = 0 <;> simp [jsOr0, hn]

def w3opts : ExecOptions := { stdin := none, timeout := none, throwOnNonZero := false }

/-- Witness for C3: a command with no stdin exiting with code 0 after two
stdout chunks and one stderr chunk resolves with code 0 and the
concatenated output. -/
theorem exec_exit_resolves_witness :
    (run w3opts [Event.stdoutData "hel", Event.stdoutData "lo\n", Event.stderrData "warn"]).settled = false
    ∧ (run w3opts [Event.stdoutData "hel", Event.stdoutData "lo\n", Event.stderrData "warn"]).stdinDone = true
    ∧ (w3opts.throwOnNonZero && codeTruthy (some 0)) = false
    ∧ (run w3opts ([Event.stdoutData "hel", Event.stdoutData "lo\n", Event.stderrData "warn"]
          ++ [Event.exit (some 0)])).settles
        = [Settlement.resolve { code := 0, stdout := "hello\n", stderr := "warn" }] := by
  refine ⟨rfl, rfl, rfl, ?_⟩
  have h := (exec_exit_resolves w3opts
    [Event.stdoutData "hel", Event.stdoutData "lo\n", Event.stderrData "warn"]
    (some 0) rfl rfl rfl).1
  rw [h]
  rfl

/-- C4 (documents the code as written): when opening the command channel
fails, the transport invokes the callback with the error set and no
channel.  The source callback (src/index.ts:92) never inspects `err`; it
immediately dereferences the missing channel and throws a TypeError, so
at this failing input the invocation is neither started nor rejected —
in particular no rejection carrying the open failure is ever produced. -/
theorem exec_open_error_not_rejected :
    execOpenCallback (some "channel open failed") false = OpenOutcome.thrownTypeError
    ∧ (∀ msg, execOpenCallback (some "channel open failed") false ≠ OpenOutcome.rejected msg)
    ∧ execOpenCallback (some "channel open failed") false ≠ OpenOutcome.machineryStarted := by
  refine ⟨rfl, ?_, ?_⟩
  · intro msg h
    exact OpenOutcome.noConfusion h
  · intro h
    exact OpenOutcome.noConfusion h

/-- C5: on a fresh client, any nonempty sequence of exec / putFile /
connectIfNeeded calls with no explicit connect() starts exactly one
underlying connection attempt — the first caller wins — and once
`connectStarted` is set, `connectIfNeeded` is a no-op, even while the
attempt is in flight or after it failed (nothing ever resets the flag). -/
theorem connectIfNeeded_single_attempt (ops : List ClientOp)
    (hops : ∀ op ∈ ops, op ≠ ClientOp.connectOp)
    (hne : ops ≠ []) :
    (runClient ops).connectCalls = 1
    ∧ (runClient ops).connectStarted = true
    ∧ (∀ st : ClientState, st.connectStarted = true → connectIfNeeded st = st) := by
  have noop : ∀ st : ClientState, st.connectStarted = true → connectIfNeeded st = st := by
    intro st h
    simp [connectIfNeeded, h]
  have frozen : ∀ (l : List ClientOp) (st : ClientState),
      (∀ op ∈ l, op ≠ ClientOp.connectOp) → st.connectStarted = true →
      l.foldl applyOp st = st := by
    intro l
    induction l with
    | nil => intro st _ _; rfl
    | cons x rest ih =>
      intro st hl hst
      have hx : applyOp st x = st := by
        cases x
        case connectOp => exact absurd rfl (hl _ (List.mem_cons_self _ _))
        all_goals simpa [applyOp] using noop st hst
      rw [List.foldl_cons, hx]
      exact ih st (fun op hop => hl op (List.mem_cons_of_mem x hop)) hst
  match ops, hne with
  | op :: rest, _ =>
    have hfirst : applyOp initClient op = { connectStarted := true, connectCalls := 1 } := by
      cases op
      case connectOp => exact absurd rfl (hops _ (List.mem_cons_self _ _))
      all_goals rfl
    have : runClient (op :: rest) = { connectStarted := true, connectCalls := 1 } := by
      rw [runClient, List.foldl_cons, hfirst]
      exact frozen rest _ (fun o ho => hops o (List.mem_cons_of_mem op ho)) rfl
    rw [this]
    exact ⟨rfl, rfl, noop⟩

/-- Witness for C5: exec, then putFile, then an explicit connectIfNeeded,
on a fresh client: one single underlying connection attempt. -/
theorem connectIfNeeded_single_attempt_witness :
    (∀ op ∈ [ClientOp.execOp, ClientOp.putFileOp, ClientOp.connectIfNeededOp],
      op ≠ ClientOp.connectOp)
    ∧ ([ClientOp.execOp, ClientOp.putFileOp, ClientOp.connectIfNeededOp] ≠ ([] : List ClientOp))
    ∧ (runClient [ClientOp.execOp, ClientOp.putFileOp, ClientOp.connectIfNeededOp]).connectCalls = 1 := by
  refine ⟨by decide, by decide, ?_⟩
  exact (connectIfNeeded_single_attempt
    [ClientOp.execOp, ClientOp.putFileOp, ClientOp.connectIfNeededOp]
    (by decide) (by decide)).1

/-- C6: an exit event delivered while unsettled and before the stdin write
was acknowledged rejects exec with the premature-exit error — an error
kind distinct from the timeout and non-zero kinds, with the exact
source message — whatever the exit code, including 0. -/
theorem exec_premature_exit (opts : ExecOptions) (es : List Event) (c : Option Int)
    (hs : (run opts es).settled = false)
    (hd : (run opts es).stdinDone = false) :
    (run opts (es ++ [Event.exit c])).settles
      = [Settlement.reject (ExecError.prematureExit c (concatStderr es) (concatStdout es))]
    ∧ (∀ t, ExecError.prematureExit c (concatStderr es) (concatStdout es)
        ≠ ExecError.timeoutErr t)
    ∧ (∀ c' e' o', ExecError.prematureExit c (concatStderr es) (concatStdout es)
        ≠ ExecError.nonZeroExit c' e' o')
    ∧ (ExecError.prematureExit c (concatStderr es) (concatStdout es)).message
      = "ssh command finished before stdin was written: "
        ++ resultInfo c (concatStderr es) (concatStdout es) := by
  refine ⟨?_, ?_, ?_, rfl⟩
  · rw [run_snoc]
    have hnil := run_settles_nil opts es hs
    rw [← run_stdout opts es, ← run_stderr opts es]
    simp [step, hs, hd, hnil]
  · intro t h
    exact ExecError.noConfusion h
  · intro c' e' o' h
    exact ExecError.noConfusion h

def w6opts : ExecOptions := { stdin := some "input", timeout := none, throwOnNonZero := false }

/-- Witness for C6: stdin supplied but never flushed, the process exits
with code 0 — exec rejects with the premature-exit error. -/
theorem exec_premature_exit_witness :
    (run w6opts [Event.stderrData "oops"]).settled = false
    ∧ (run w6opts [Event.stderrData "oops"]).stdinDone = false
    ∧ (run w6opts ([Event.stderrData "oops"] ++ [Event.exit (some 0)])).settles
        = [Settlement.reject (ExecError.prematureExit (some 0) "oops" "")] := by
  refine ⟨rfl, rfl, ?_⟩
  have h := (exec_premature_exit w6opts [Event.stderrData "oops"] (some 0) rfl rfl).1
  rw [h]
  rfl

/-- C7: a process exiting with a non-zero code N while unsettled and with
stdin flushed: with throwOnNonZero set, exec rejects with the non-zero
error whose message interpolates N and the accumulated stdout and stderr;
with throwOnNonZero unset, the same scenario resolves successfully with
code N. -/
theorem exec_nonzero_exit (opts : ExecOptions) (es : List Event) (n : Int)
    (hs : (run opts es).settled = false)
    (hd : (run opts es).stdinDone = true)
    (hn : n ≠ 0) :
    (opts.throwOnNonZero = true →
      (run opts (es ++ [Event.exit (some n)])).settles
        = [Settlement.reject (ExecError.nonZeroExit (some n) (concatStderr es) (concatStdout es))])
    ∧ (opts.throwOnNonZero = false →
      (run opts (es ++ [Event.exit (some n)])).settles
        = [Settlement.resolve { code := n, stdout := concatStdout es, stderr := concatStderr es }])
    ∧ (ExecError.nonZeroExit (some n) (concatStderr es) (concatStdout es)).message
      = "command exited with non-zero " ++ ("code: " ++ toString n ++ "\nstderr: \""
        ++ concatStderr es ++ "\"\nstdout: \"" ++ concatStdout es ++ "\"") := by
  have hnil := run_settles_nil opts es hs
  refine ⟨?_, ?_, ?_⟩
  · intro hthrow
    rw [run_snoc]
    rw [← run_stdout opts es, ← run_stderr opts es]
    simp [step, hs, hd, hthrow, codeTruthy, hn, hnil]
  · intro hthrow
    rw [run_snoc]
    rw [← run_stdout opts es, ← run_stderr opts es]
    simp [step, hs, hd, hthrow, hnil, jsOr0, hn]
  · rfl

def w7optsT : ExecOptions := { stdin := none, timeout := none, throwOnNonZero := true }

def w7optsF : ExecOptions := { stdin := none, timeout := none, throwOnNonZero := false }

/-- Witness for C7: exit code 7 after one chunk on each stream — rejection
with throwOnNonZero, resolution with code 7 without it. -/
theorem exec_nonzero_exit_witness :
    (run w7optsT [Event.stdoutData "out", Event.stderrData "err"]).settled = false
    ∧ (run w7optsT [Event.stdoutData "out", Event.stderrData "err"]).stdinDone = true
    ∧ ((7 : Int) ≠ 0)
    ∧ (run w7optsT ([Event.stdoutData "out", Event.stderrData "err"] ++ [Event.exit (some 7)])).settles
        = [Settlement.reject (ExecError.nonZeroExit (some 7) "err" "out")]
    ∧ (run w7optsF ([Event.stdoutData "out", Event.stderrData "err"] ++ [Event.exit (some 7)])).settles
        = [Settlement.resolve { code := 7, stdout := "out", stderr := "err" }] := by
  refine ⟨rfl, rfl, by decide, ?_, ?_⟩
  · have h := (exec_nonzero_exit w7optsT [Event.stdoutData "out", Event.stderrData "err"]
      7 rfl rfl (by decide)).1 rfl
    rw [h]
    rfl
  · have h := (exec_nonzero_exit w7optsF [Event.stdoutData "out", Event.stderrData "err"]
      7 rfl rfl (by decide)).2.1 rfl
    rw [h]
    rfl

/-- C8: whichever transport signal arrives first decides connect(): a
ready signal resolves, an error signal rejects with the transport error
wrapped as the cause under the message "SSH connect failed"; at that
moment both listeners are gone, so whatever signals follow can neither
resolve nor reject again. -/
theorem connect_first_signal (e : ConnEvent) (rest : List ConnEvent) :
    (runConnect (e :: rest)).settles = [connSettleOf e]
    ∧ (runConnect (e :: rest)).readyActive = false
    ∧ (runConnect (e :: rest)).errorActive = false
    ∧ (∀ m, connSettleOf (ConnEvent.error m)
        = ConnSettle.rejected { message := "SSH connect failed", cause := m })
    ∧ connSettleOf ConnEvent.ready = ConnSettle.resolved := by
  have hstep : connStep connInit e =
      { readyActive := false, errorActive := false, settles := [connSettleOf e] } := by
    cases e <;> rfl
  have frozen : ∀ (l : List ConnEvent) (st : ConnectState),
      st.readyActive = false → st.errorActive = false →
      l.foldl connStep st = st := by
    intro l
    induction l with
    | nil => intro st _ _; rfl
    | cons x r ih =>
      intro st h1 h2
      have hx : connStep st x = st := by
        cases x <;> simp [connStep, h1, h2]
      rw [List.foldl_cons, hx]
      exact ih st h1 h2
  have hrun : runConnect (e :: rest)
      = { readyActive := false, errorActive := false, settles := [connSettleOf e] } := by
    rw [runConnect, List.foldl_cons, hstep]
    exact frozen rest _ rfl rfl
  rw [hrun]
  exact ⟨rfl, rfl, rfl, fun m => rfl, rfl⟩

/-- C9: execScript forwards to exec with command "sudo bash -s" when sudo
is set and "bash -s" otherwise, passes timeout and throwOnNonZero through
unchanged, and fixes stdin to the script body — so the forwarded
invocation behaves on every event trace exactly as exec called with those
arguments. -/
theorem execScript_refines_exec (script : String) (o : ScriptOptions) :
    (execScriptCall script o).1 = (if o.sudoFlag then "sudo bash -s" else "bash -s")
    ∧ (execScriptCall script o).2.stdin = some script
    ∧ (execScriptCall script o).2.timeout = o.timeout
    ∧ (execScriptCall script o).2.throwOnNonZero = o.throwOnNonZero
    ∧ (∀ es, run (execScriptCall script o).2 es
        = run { stdin := some script, timeout := o.timeout,
                throwOnNonZero := o.throwOnNonZero } es) := by
  refine ⟨?_, rfl, rfl, rfl, fun es => rfl⟩
  cases h : o.sudoFlag <;> simp [execScriptCall, h]

/-- `step` never reads the `stdin` option: only `timeout` (for the timeout
message) and `throwOnNonZero` matter after initialisation. -/
theorem step_stdin_irrelevant (o : ExecOptions) (a b : Option String)
    (st : ExecState) (e : Event) :
    step { o with stdin := a } st e = step { o with stdin := b } st e := by
  cases e <;> rfl

/-- From a state with `stdinDone` set and no premature-exit rejection
logged, a step keeps `stdinDone` set and logs no premature-exit
rejection. -/
theorem step_no_premature (opts : ExecOptions) (st : ExecState) (e : Event)
    (h1 : st.stdinDone = true)
    (h2 : ∀ s ∈ st.settles, ∀ c a b, s ≠ Settlement.reject (ExecError.prematureExit c a b)) :
    (step opts st e).stdinDone = true
    ∧ ∀ s ∈ (step opts st e).settles, ∀ c a b,
        s ≠ Settlement.reject (ExecError.prematureExit c a b) := by
  cases e
  case stdoutData s => exact ⟨h1, h2⟩
  case stderrData s => exact ⟨h1, h2⟩
  case stdinFlushed => exact ⟨rfl, h2⟩
  case timeoutFire =>
    by_cases hset : st.settled
    · simp only [step, if_pos hset]
      exact ⟨h1, h2⟩
    · simp only [step, if_neg hset]
      refine ⟨h1, ?_⟩
      intro s hs c a b
      rcases List.mem_append.mp hs with hmem | hmem
      · exact h2 s hmem c a b
      · rcases List.mem_singleton.mp hmem with rfl
        intro hcontra
        exact ExecError.noConfusion (Settlement.reject.inj hcontra)
  case exit code =>
    by_cases hset : st.settled
    · simp only [step, if_pos hset]
      exact ⟨h1, h2⟩
    · have hnd : (!st.stdinDone) = false := by simp [h1]
      simp only [step, if_neg hset, hnd, Bool.false_eq_true, if_false]
      by_cases hth : (opts.throwOnNonZero && codeTruthy code) = true
      · simp only [if_pos hth]
        refine ⟨h1, ?_⟩
        intro s hs c a b
        rcases List.mem_append.mp hs with hmem | hmem
        · exact h2 s hmem c a b
        · rcases List.mem_singleton.mp hmem with rfl
          intro hcontra
          exact ExecError.noConfusion (Settlement.reject.inj hcontra)
      · simp only [if_neg hth]
        refine ⟨h1, ?_⟩
        intro s hs c a b
        rcases List.mem_append.mp hs with hmem | hmem
        · exact h2 s hmem c a b
        · rcases List.mem_singleton.mp hmem with rfl
          intro hcontra
          exact Settlement.noConfusion hcontra

/-- Folding any trace from a state with `stdinDone` set and no
premature-exit rejection logged never logs one. -/
theorem foldl_no_premature (opts : ExecOptions) (es : List Event) (st : ExecState)
    (h1 : st.stdinDone = true)
    (h2 : ∀ s ∈ st.settles, ∀ c a b, s ≠ Settlement.reject (ExecError.prematureExit c a b)) :
    (es.foldl (step opts) st).stdinDone = true
    ∧ ∀ s ∈ (es.foldl (step opts) st).settles, ∀ c a b,
        s ≠ Settlement.reject (ExecError.prematureExit c a b) := by
  induction es generalizing st with
  | nil => exact ⟨h1, h2⟩
  | cons x rest ih =>
    rw [List.foldl_cons]
    have hx := step_no_premature opts st x h1 h2
    exact ih (step opts st x) hx.1 hx.2

/-- C10: an exec invocation whose stdin option is the empty string (the
only falsy non-undefined value of the string case) behaves exactly as if
stdin were absent: the runs coincide on every event trace, the channel's
input stream is never written or closed, the stdin-flushed flag starts
true, and no premature-exit rejection is ever produced. -/
theorem exec_empty_stdin_absent (o : ExecOptions) (es : List Event) :
    run { o with stdin := some "" } es = run { o with stdin := none } es
    ∧ (initState { o with stdin := some "" }).stdinEndCalled = false
    ∧ (initState { o with stdin := some "" }).stdinDone = true
    ∧ (∀ s ∈ (run { o with stdin := some "" } es).settles, ∀ c a b,
        s ≠ Settlement.reject (ExecError.prematureExit c a b)) := by
  refine ⟨?_, rfl, rfl, ?_⟩
  · have key : ∀ (l : List Event) (st : ExecState),
        l.foldl (step { o with stdin := some "" }) st
          = l.foldl (step { o with stdin := none }) st := by
      intro l
      induction l with
      | nil => intro st; rfl
      | cons x r ih =>
        intro st
        rw [List.foldl_cons, List.foldl_cons, step_stdin_irrelevant o (some "") none, ih]
    rw [run, run, key]
    rfl
  · exact (foldl_no_premature _ es (initState { o with stdin := some "" }) rfl
      (by intro s hs; simp [initState] at hs)).2

/-- Witness for C8: an error signal followed by a late ready signal —
the promise is rejected once with the wrapped cause and never resolved. -/
theorem connect_first_signal_witness :
    (runConnect [ConnEvent.error "ECONNREFUSED", ConnEvent.ready]).settles
      = [ConnSettle.rejected { message := "SSH connect failed", cause := "ECONNREFUSED" }] :=
  (connect_first_signal (ConnEvent.error "ECONNREFUSED") [ConnEvent.ready]).1

def w9opts : ScriptOptions := { sudoFlag := true, timeout := some 5, throwOnNonZero := true }

/-- Witness for C9: with sudo set, the forwarded command is
"sudo bash -s" and stdin is the script body. -/
theorem execScript_refines_exec_witness :
    (execScriptCall "echo hi" w9opts).1 = "sudo bash -s"
    ∧ (execScriptCall "echo hi" w9opts).2.stdin = some "echo hi" := by
  have h := execScript_refines_exec "echo hi" w9opts
  exact ⟨by rw [h.1]; rfl, h.2.1⟩

def w10opts : ExecOptions := { stdin := some "x", timeout := none, throwOnNonZero := false }

/-- Witness for C10: with stdin overridden to the empty string, an exit
with code 0 resolves (no premature-exit rejection) exactly as with stdin
absent. -/
theorem exec_empty_stdin_absent_witness :
    run { w10opts with stdin := some "" } [Event.exit (some 0)]
      = run { w10opts with stdin := none } [Event.exit (some 0)]
    ∧ (initState { w10opts with stdin := some "" }).stdinEndCalled = false := by
  have h := exec_empty_stdin_absent w10opts [Event.exit (some 0)]
  exact ⟨h.1, h.2.1⟩
